import Mathlib

/-!
Formal model of the SEPS mini network monitor: the M5StickC probe
(`src/M5StackCPlus2/mini_nms.ino`) and its Processing viewer
(`src/M5StackCPlus2/nms_view.pde`).  The embedding covers the
health-check state machine (`checkOne`, `icmpAvgMs`), the alarm
scheduler (`alarmTick`, `beepDown`, `beepUp`, `stopAlarm`), the target
registry and its command handler (`addTarget`, `delTargetByName`,
`setIntervalByName`, `handleCommandUDP`), the telemetry sender
(`sendTelemetryUDP`) and the viewer-side reconciler
(`readUdpNonBlocking`).

Modelling conventions:
* `uint32_t` timestamps are `Nat`s taken modulo `2^32`; the wraparound
  subtraction used by the source for elapsed-time tests is `usub`.
* `uint8_t` counters wrap modulo 256.
* C `float` values (round-trip times) are modelled as exact rationals;
  `-1` is the source's "no value" sentinel.
* Hardware and I/O side effects (speaker tones, LCD, sockets) are
  reflected as explicit return values (lists of emitted tone events,
  lists of produced datagrams); probe outcomes (`Ping.ping` rounds) are
  inputs.
-/

namespace MiniNMS

/-- `2^32`; `uint32_t` arithmetic is taken modulo this. -/
def U32 : Nat := 4294967296

/-- `uint32_t` subtraction `a - b` with wraparound, as the source uses for
elapsed-time tests such as `now - alarmStartMs` and `now - lastCheckMs`. -/
def usub (a b : Nat) : Nat := (a + (U32 - b % U32)) % U32

/-- One monitored endpoint (`struct Target` in `mini_nms.ino`).
`lastAvgRtt` is the C `float`, modelled as an exact rational. -/
structure Target where
  name : String
  host : String
  intervalMs : Nat
  lastCheckMs : Nat := 0
  consecOk : Nat := 0
  consecFail : Nat := 0
  isDown : Bool := false
  lastAvgRtt : ℚ := -1
  lastChangeMs : Nat := 0
  downStartMs : Nat := 0
deriving DecidableEq, Repr

/-- `MAX_TGT`: fixed registry capacity. -/
def MAX_TGT : Nat := 12

/-- `FAIL_TH`: consecutive failures needed to go DOWN. -/
def FAIL_TH : Nat := 3

/-- `REC_TH`: consecutive successes needed to go UP. -/
def REC_TH : Nat := 2

/-- `PING_TRY`: number of probe rounds per check. -/
def PING_TRY : Nat := 4

/-- `BUZZER_ENABLE` compile-time constant. -/
def BUZZER_ENABLE : Bool := true

/-- `ALARM_MAX_MS`: alarm auto-stop timeout. -/
def ALARM_MAX_MS : Nat := 60000

/-- `icmpAvgMs(host, &avg)`: runs `PING_TRY` probe rounds; each round either
succeeds with a round-trip time (`some rtt`) or fails (`none`).  Returns
`(true, mean of successful rounds)` when at least one round succeeded,
else `(false, -1)`.  The externally-observed round outcomes are the
`rounds` input; only the first `PING_TRY` entries are consulted. -/
def icmpAvgMs (rounds : List (Option ℚ)) : Bool × ℚ :=
  let oks := (rounds.take PING_TRY).filterMap id
  if 0 < oks.length then (true, oks.sum / (oks.length : ℚ)) else (false, -1)

/-- UP/DOWN transition event signalled by `logTransition`. -/
inductive Transition where
  | toDown
  | toUp
deriving DecidableEq, Repr

/-- `checkOne(Target&)`: one check cycle for one target.  `wifi` is
`WiFi.status() == WL_CONNECTED`; when it is false the probe is not run
and `up` stays false, so the check falls into the failure branch.
`logTransition`'s effect on the target (`lastChangeMs`, `downStartMs`)
is folded in; the signalled transition is returned alongside. -/
def checkOne (wifi : Bool) (rounds : List (Option ℚ)) (now : Nat) (t : Target) :
    Target × Option Transition :=
  let up : Bool := wifi && (icmpAvgMs rounds).1
  let avg : ℚ := (icmpAvgMs rounds).2
  let t1 : Target := { t with lastAvgRtt := if up then avg else -1 }
  if up then
    let t2 : Target := { t1 with consecOk := (t1.consecOk + 1) % 256, consecFail := 0 }
    if t2.isDown = true ∧ REC_TH ≤ t2.consecOk then
      ({ t2 with isDown := false, lastChangeMs := now, downStartMs := 0 }, some .toUp)
    else (t2, none)
  else
    let t2 : Target := { t1 with consecFail := (t1.consecFail + 1) % 256, consecOk := 0 }
    if t2.isDown = false ∧ FAIL_TH ≤ t2.consecFail then
      ({ t2 with isDown := true, lastChangeMs := now, downStartMs := now }, some .toDown)
    else (t2, none)

/-- The scheduler pass in `loop()`: each target whose interval has elapsed
(`now - lastCheckMs >= intervalMs`, `uint32_t` arithmetic) gets
`lastCheckMs = now` and a `checkOne`.  `probes i` gives the probe-round
outcomes for the target at position `i` (first argument is the position
of the head of the remaining list). -/
def runChecksFrom (wifi : Bool) (probes : Nat → List (Option ℚ)) (now : Nat) :
    Nat → List Target → List Target
  | _, [] => []
  | i, t :: ts =>
      (if t.intervalMs ≤ usub now t.lastCheckMs then
        (checkOne wifi (probes i) now { t with lastCheckMs := now }).1
      else t) :: runChecksFrom wifi probes now (i + 1) ts

/-- One scheduler pass over the whole registry. -/
def runChecks (wifi : Bool) (probes : Nat → List (Option ℚ)) (now : Nat)
    (reg : List Target) : List Target :=
  runChecksFrom wifi probes now 0 reg

/-- The target appended by `addTarget`: name and host truncated to the
struct field capacities, all runtime counters zeroed, `lastAvgRtt = -1`.
(The source does not assign `lastChangeMs`/`downStartMs` in `addTarget`;
the array slot's default-initialized value is 0, which is what a fresh
slot holds.  No claim depends on these two fields of a fresh target.) -/
def newTarget (name host : String) (itvl : Nat) : Target :=
  { name := name.take 15, host := host.take 47, intervalMs := itvl,
    lastCheckMs := 0, consecOk := 0, consecFail := 0, isDown := false,
    lastAvgRtt := -1, lastChangeMs := 0, downStartMs := 0 }

/-- `addTarget(name, host, itvl)`: fails without mutation when the registry
is full, otherwise appends `newTarget`. -/
def addTarget (reg : List Target) (name host : String) (itvl : Nat) :
    List Target × Bool :=
  if MAX_TGT ≤ reg.length then (reg, false)
  else (reg ++ [newTarget name host itvl], true)

/-- `findByName(name)`: linear scan, index of first entry with that name. -/
def findByName (reg : List Target) (name : String) : Option Nat :=
  match reg with
  | [] => none
  | t :: ts => if t.name = name then some 0 else (findByName ts name).map (· + 1)

/-- `delTargetByName(name)`: removes the first matching entry, compacting
the rest (the source shifts the array left). -/
def delTargetByName (reg : List Target) (name : String) : List Target × Bool :=
  match findByName reg name with
  | none => (reg, false)
  | some i => (reg.eraseIdx i, true)

/-- `setIntervalByName(name, itvl)`: mutates only `intervalMs` of the first
matching entry. -/
def setIntervalByName (reg : List Target) (name : String) (itvl : Nat) :
    List Target × Bool :=
  match findByName reg name with
  | none => (reg, false)
  | some i =>
      match reg[i]? with
      | none => (reg, false)
      | some t => (reg.set i { t with intervalMs := itvl }, true)

/-- Fields of a parsed command document, as ArduinoJson exposes them:
`none` models an absent (or non-convertible) field, for which the
source's `doc[key] | default` supplies the default. -/
structure CmdDoc where
  cmd : Option String := none
  name : Option String := none
  host : Option String := none
  itvl : Option Nat := none
deriving DecidableEq, Repr

/-- An inbound command datagram: either a JSON parse failure or a parsed
document. -/
inductive CmdPacket where
  | bad
  | ok (d : CmdDoc)
deriving DecidableEq, Repr

/-- `handleCommandUDP()`: applies one inbound command datagram to the
registry.  Parse errors are logged and ignored; `cmd`/`name`/`host`
default to `""`, `itvl` defaults to 6000 for `add` and 0 for `set`. -/
def handleCommandUDP (reg : List Target) : CmdPacket → List Target
  | .bad => reg
  | .ok d =>
      let cmd := d.cmd.getD ""
      let name := d.name.getD ""
      if cmd = "add" then
        let host := d.host.getD ""
        let itvl := d.itvl.getD 6000
        if name.length ≠ 0 ∧ host.length ≠ 0 then (addTarget reg name host itvl).1 else reg
      else if cmd = "del" then
        if name.length ≠ 0 then (delTargetByName reg name).1 else reg
      else if cmd = "set" then
        let itvl := d.itvl.getD 0
        if name.length ≠ 0 ∧ 0 < itvl then (setIntervalByName reg name itvl).1 else reg
      else reg

/-- The probe-side alarm globals (`alarmActive`, `alarmStartMs`,
`alarmNextMs`, `alarmStep`). -/
structure AlarmState where
  active : Bool := false
  startMs : Nat := 0
  nextMs : Nat := 0
  step : Nat := 0
deriving DecidableEq, Repr

/-- `stopAlarm()`: clears the active flag (and silences the speaker, a
side effect outside the state). -/
def stopAlarm (s : AlarmState) : AlarmState := { s with active := false }

/-- `beepDown()`: invoked on a DOWN transition; when the buzzer is enabled
it unconditionally (re)activates the alarm with `startMs = now`,
`nextMs = 0` (fire immediately) and `step = 0`. -/
def beepDown (s : AlarmState) (now : Nat) : AlarmState :=
  if BUZZER_ENABLE then { active := true, startMs := now, nextMs := 0, step := 0 } else s

/-- `beepUp()`: invoked on an UP transition; stops the alarm and emits the
one-shot confirmation tone. -/
def beepUp (s : AlarmState) : AlarmState × List (Nat × Nat) :=
  if BUZZER_ENABLE then (stopAlarm s, [(1500, 160)]) else (s, [])

/-- `alarmTick()`: one cooperative tick of the alarm scheduler at time
`now`, with `btnPressed` = `M5.BtnA.wasPressed() || M5.BtnB.wasPressed()`.
Returns the next alarm state and the tone events emitted this tick. -/
def alarmTick (s : AlarmState) (now : Nat) (btnPressed : Bool) :
    AlarmState × List (Nat × Nat) :=
  if s.active = false then (s, [])
  else if ALARM_MAX_MS ≤ usub now s.startMs then (stopAlarm s, [])
  else if btnPressed then (stopAlarm s, [])
  else if s.nextMs ≤ now then
    if s.step = 0 then ({ s with nextMs := (now + 300) % U32, step := 1 }, [(650, 180)])
    else if s.step = 1 then ({ s with nextMs := (now + 300) % U32, step := 2 }, [(650, 180)])
    else ({ s with nextMs := (now + 1000) % U32, step := 0 }, [(650, 220)])
  else (s, [])

end MiniNMS

namespace NmsView

open MiniNMS (Target)

/-- A JSON value on the telemetry wire (the structured content the
ArduinoJson document serializes and Processing's JSON parser recovers;
the byte-level codec is the external JSON library on each side). -/
inductive JVal where
  | jnull
  | jbool (b : Bool)
  | jnum (q : ℚ)
  | jstr (s : String)
  | jarr (elems : List JVal)
  | jobj (fields : List (String × JVal))

/-- One entry of the viewer's display set (`class Item` in
`nms_view.pde`). -/
structure Item where
  name : String
  host : String
  down : Bool
  rtt : ℚ
deriving DecidableEq, Repr

/-- The viewer's display state: `items` and `lastUpdateTs`. -/
structure ViewerState where
  items : List Item := []
  lastUpdateTs : Int := 0
deriving DecidableEq, Repr

/-- What one call of `readUdpNonBlocking` observes on the socket:
no datagram within the timeout, a datagram that `parseJSONObject`
rejects (invalid JSON, or valid JSON that is not an object — both yield
`null`), or a parsed JSON object's fields. -/
inductive RxEvent where
  | timeout
  | badJson
  | jsonObj (fields : List (String × JVal))

/-- Field lookup in a JSON object (first binding wins). -/
def jget (fields : List (String × JVal)) (k : String) : Option JVal :=
  (fields.find? (fun kv => kv.1 == k)).map (fun kv => kv.2)

/-- `Number.longValue()` / `intValue()` truncation of a JSON number. -/
def jnumToInt (q : ℚ) : Int := q.num / (q.den : Int)

/-- `jo.getLong(key, default)`: the number's integer value, or the default
when the field is missing or not a number. -/
def getLongD (fields : List (String × JVal)) (k : String) (d : Int) : Int :=
  match jget fields k with
  | some (.jnum q) => jnumToInt q
  | _ => d

/-- `jo.getJSONArray(key)`: `some` elements for an array field.  A missing
field yields `null` (caught by the source's null check) and a
wrongly-typed field throws (caught by the catch-all); both leave the
item list untouched, so both are `none` here. -/
def getArrOpt (fields : List (String × JVal)) (k : String) : Option (List JVal) :=
  match jget fields k with
  | some (.jarr l) => some l
  | _ => none

/-- `o.getString(key)` with no default: throws (`none`) unless the field
is present and a string. -/
def getStrT (fields : List (String × JVal)) (k : String) : Option String :=
  match jget fields k with
  | some (.jstr s) => some s
  | _ => none

/-- `o.getInt(key)` with no default: throws (`none`) unless the field is
present and a number. -/
def getIntT (fields : List (String × JVal)) (k : String) : Option Int :=
  match jget fields k with
  | some (.jnum q) => some (jnumToInt q)
  | _ => none

/-- `o.getDouble(key, default)`: the number, or the default when missing
or not a number. -/
def getDoubleD (fields : List (String × JVal)) (k : String) (d : ℚ) : ℚ :=
  match jget fields k with
  | some (.jnum q) => q
  | _ => d

/-- Parsing one element of the `items` array: `arr.getJSONObject(i)` then
`name`/`host`/`down` (throwing getters) and `rtt` (default `-1`).
`none` models the per-datagram exception.  The source's find-or-create
against the previous item list only recycles the object reference; every
field is overwritten, so the resulting entry is determined by the
datagram alone. -/
def parseWireItem (v : JVal) : Option Item :=
  match v with
  | .jobj fs =>
      match getStrT fs "name", getStrT fs "host", getIntT fs "down" with
      | some n, some h, some d =>
          some { name := n, host := h, down := d == 1, rtt := getDoubleD fs "rtt" (-1) }
      | _, _, _ => none
  | _ => none

/-- The loop over the `items` array building `next`; an exception at any
element aborts the whole datagram (`next` is never installed). -/
def parseItems : List JVal → Option (List Item)
  | [] => some []
  | v :: vs =>
      match parseWireItem v with
      | none => none
      | some it =>
          match parseItems vs with
          | none => none
          | some rest => some (it :: rest)

/-- `readUdpNonBlocking()`: one socket poll.  Note the source assigns
`lastUpdateTs` (defaulting to the viewer's own `millis()`, the `nowMs`
argument) before it validates the `items` array, so a well-formed JSON
object with missing or unreadable items still refreshes the timestamp
while leaving `items` untouched. -/
def readUdpNonBlocking (s : ViewerState) (e : RxEvent) (nowMs : Nat) : ViewerState :=
  match e with
  | .timeout => s
  | .badJson => s
  | .jsonObj fields =>
      let s1 : ViewerState := { s with lastUpdateTs := getLongD fields "ts" (Int.ofNat nowMs) }
      match getArrOpt fields "items" with
      | none => s1
      | some arr =>
          match parseItems arr with
          | none => s1
          | some next => { s1 with items := next }

end NmsView

namespace MiniNMS

open NmsView (JVal RxEvent Item)

/-- The JSON object built for one target by `sendTelemetryUDP`. -/
def itemJson (t : Target) : JVal :=
  .jobj [("name", .jstr t.name), ("host", .jstr t.host),
         ("down", .jnum (if t.isDown then 1 else 0)), ("rtt", .jnum t.lastAvgRtt)]

/-- The fields of the full telemetry document
`{ ts: ..., items: [...] }`. -/
def telemetryFields (ts : Nat) (tgts : List Target) : List (String × JVal) :=
  [("ts", .jnum (ts : ℚ)), ("items", .jarr (tgts.map itemJson))]

/-- Rendering of a JSON number for the size measure.  Integral values
print their integer; ArduinoJson's shortest-float rendering of
non-integral values is approximated by the rational's own notation
(this function only feeds the size threshold, never the decoded data). -/
def encodeNum (q : ℚ) : String :=
  if q.den = 1 then toString q.num else toString q

/-- Minified JSON text of one item object, for the size measure. -/
def encodeItemJson (t : Target) : String :=
  "\x7b\"name\":\"" ++ t.name ++ "\",\"host\":\"" ++ t.host ++ "\",\"down\":"
    ++ (if t.isDown then "1" else "0") ++ ",\"rtt\":" ++ encodeNum t.lastAvgRtt ++ "\x7d"

/-- Minified JSON text of the full telemetry document, for the size
measure. -/
def encodeTelemetry (ts : Nat) (tgts : List Target) : String :=
  "\x7b\"ts\":" ++ toString ts ++ ",\"items\":["
    ++ String.intercalate "," (tgts.map encodeItemJson) ++ "]\x7d"

/-- `measureJson(doc)`: byte length of the serialized document. -/
def measureTelemetry (ts : Nat) (tgts : List Target) : Nat :=
  (encodeTelemetry ts tgts).length

/-- `sendTelemetryUDP()`: nothing when Wi-Fi is down; one combined
datagram when the serialized document fits in 1400 bytes; otherwise one
single-item datagram per target (each built from the same document
shape; the source stamps each with its own fresh `millis()`, modelled
here with the shared `ts`). -/
def sendTelemetryUDP (wifi : Bool) (ts : Nat) (tgts : List Target) : List RxEvent :=
  if wifi = false then []
  else if measureTelemetry ts tgts ≤ 1400 then [.jsonObj (telemetryFields ts tgts)]
  else tgts.map (fun t => .jsonObj (telemetryFields ts [t]))

/-- The display entry the viewer should show for a probe-side target. -/
def toItem (t : Target) : Item :=
  { name := t.name, host := t.host, down := t.isDown, rtt := t.lastAvgRtt }

end MiniNMS

/-! ## Supporting lemmas -/

namespace MiniNMS

/-- On the `uint32_t` range, wraparound subtraction is ordinary
subtraction. -/
theorem usub_eq_sub (a b : Nat) (h1 : b ≤ a) (h2 : a < b + U32) :
    usub a b = a - b := by
  simp only [usub, U32] at *
  omega

/-- Reachability invariant of a target's hysteresis counters: while up,
`consecFail` has not yet hit the DOWN threshold; while down, `consecOk`
has not yet hit the UP threshold; both fit in a `uint8_t`. -/
def TargetInv (t : Target) : Prop :=
  (t.isDown = false → t.consecFail ≤ 2) ∧ (t.isDown = true → t.consecOk ≤ 1) ∧
  t.consecOk < 256 ∧ t.consecFail < 256

instance (t : Target) : Decidable (TargetInv t) := by
  unfold TargetInv
  infer_instance

/-- `newTarget` satisfies the counter invariant. -/
theorem newTarget_inv (name host : String) (itvl : Nat) :
    TargetInv (newTarget name host itvl) := by
  simp [TargetInv, newTarget]

/-- `checkOne` preserves the counter invariant. -/
theorem checkOne_inv (wifi : Bool) (rounds : List (Option ℚ)) (now : Nat)
    (t : Target) (h : TargetInv t) : TargetInv (checkOne wifi rounds now t).1 := by
  obtain ⟨hf, ho, hok, hfl⟩ := h
  cases hup : wifi && (icmpAvgMs rounds).1 with
  | true =>
      simp only [checkOne, hup, if_true]
      split
      · simp_all [TargetInv]
        omega
      · cases hd : t.isDown <;> simp_all [TargetInv, REC_TH] <;> omega
  | false =>
      simp only [checkOne, hup, Bool.false_eq_true, if_false]
      split
      · simp_all [TargetInv]
        omega
      · cases hd : t.isDown <;> simp_all [TargetInv, FAIL_TH] <;> omega

/-- Mutual exclusion of the hysteresis counters. -/
def MutExCtr (t : Target) : Prop := t.consecOk = 0 ∨ t.consecFail = 0

instance (t : Target) : Decidable (MutExCtr t) := by
  unfold MutExCtr
  infer_instance

/-- After any single check the counters are mutually exclusive: each
branch of `checkOne` zeroes one of them. -/
theorem mutEx_checkOne (wifi : Bool) (rounds : List (Option ℚ)) (now : Nat)
    (t : Target) : MutExCtr (checkOne wifi rounds now t).1 := by
  cases hup : wifi && (icmpAvgMs rounds).1 with
  | true =>
      simp only [checkOne, hup, if_true]
      split <;> simp [MutExCtr]
  | false =>
      simp only [checkOne, hup, Bool.false_eq_true, if_false]
      split <;> simp [MutExCtr]

/-- Membership in a scheduler pass: every element is either an untouched
target of the input or a `checkOne` result of one. -/
theorem mem_runChecksFrom (wifi : Bool) (probes : Nat → List (Option ℚ)) (now : Nat)
    (reg : List Target) (i : Nat) (t' : Target)
    (h : t' ∈ runChecksFrom wifi probes now i reg) :
    (∃ t ∈ reg, t' = t) ∨
    (∃ t ∈ reg, ∃ j, t' = (checkOne wifi (probes j) now { t with lastCheckMs := now }).1) := by
  induction reg generalizing i with
  | nil => simp [runChecksFrom] at h
  | cons a as ih =>
      simp only [runChecksFrom, List.mem_cons] at h
      rcases h with h | h
      · by_cases hdue : a.intervalMs ≤ usub now a.lastCheckMs
        · right
          exact ⟨a, List.mem_cons_self a as, i, by simpa [hdue] using h⟩
        · left
          exact ⟨a, List.mem_cons_self a as, by simpa [hdue] using h⟩
      · rcases ih (i + 1) h with ⟨t, ht, heq⟩ | ⟨t, ht, j, heq⟩
        · exact Or.inl ⟨t, List.mem_cons_of_mem a ht, heq⟩
        · exact Or.inr ⟨t, List.mem_cons_of_mem a ht, j, heq⟩

/-- `findByName` only returns indices inside the list, and the entry
there exists. -/
theorem findByName_get (reg : List Target) (name : String) (i : Nat)
    (h : findByName reg name = some i) : ∃ t, reg[i]? = some t := by
  induction reg generalizing i with
  | nil => simp [findByName] at h
  | cons a as ih =>
      simp only [findByName] at h
      by_cases ha : a.name = name
      · simp only [ha, if_true, Option.some.injEq] at h
        exact ⟨a, by simp [← h]⟩
      · simp only [ha, if_false, Option.map_eq_some'] at h
        obtain ⟨j, hj, rfl⟩ := h
        obtain ⟨t, ht⟩ := ih j hj
        exact ⟨t, by simpa using ht⟩

/-- Spec-side characterization: `post` differs from `pre` at most by the
interval of the first entry named `name`. -/
def onlyIntervalSet (pre post : List Target) (name : String) (itvl : Nat) : Prop :=
  (findByName pre name = none → post = pre) ∧
  ∀ i, findByName pre name = some i →
    ∃ t, pre[i]? = some t ∧ post = pre.set i { t with intervalMs := itvl }

/-- `setIntervalByName` changes only the first matching entry's interval. -/
theorem setIntervalByName_only (reg : List Target) (name : String) (itvl : Nat) :
    onlyIntervalSet reg ((setIntervalByName reg name itvl).1) name itvl := by
  constructor
  · intro hnone
    simp [setIntervalByName, hnone]
  · intro i hi
    obtain ⟨t, ht⟩ := findByName_get reg name i hi
    exact ⟨t, ht, by simp [setIntervalByName, hi, ht]⟩

end MiniNMS

/-! ## Claims about the Health Checker (C1 - C4) -/

namespace MiniNMS

/-- A concrete up target two failures away from the threshold. -/
def tNoWifi : Target :=
  { name := "zabbix", host := "192.168.11.200", intervalMs := 5000, consecFail := 2 }

/-- Claim C1, counterexample: with no network connectivity the check is
NOT skipped.  On a target that is up with `consecFail = 2`, a check
cycle without connectivity increments `consecFail` to 3, flips `isDown`,
stamps `lastChangeMs`/`downStartMs` and signals a DOWN transition — the
claimed "counters untouched, no transition" behaviour is false. -/
theorem checkOne_noWifi_counterexample :
    tNoWifi.consecFail = 2 ∧ tNoWifi.isDown = false ∧ tNoWifi.downStartMs = 0 ∧
    (checkOne false [] 100 tNoWifi).1.consecFail = 3 ∧
    (checkOne false [] 100 tNoWifi).1.isDown = true ∧
    (checkOne false [] 100 tNoWifi).1.downStartMs = 100 ∧
    (checkOne false [] 100 tNoWifi).2 = some .toDown := by
  decide

/-- Claim C1, amended: when no network connectivity exists
(`WiFi.status() != WL_CONNECTED`), the Health Checker treats the check
cycle as a failure: `lastAvgRtt` is set to `-1`, `consecOk` resets to
zero, `consecFail` increments (mod 256), and a DOWN transition is
signalled exactly when the target was up and the incremented counter
reaches the failure threshold. -/
theorem checkOne_noWifi_is_failure (rounds : List (Option ℚ)) (now : Nat) (t : Target) :
    (checkOne false rounds now t).1.lastAvgRtt = -1 ∧
    (checkOne false rounds now t).1.consecOk = 0 ∧
    (checkOne false rounds now t).1.consecFail = (t.consecFail + 1) % 256 ∧
    ((checkOne false rounds now t).2 = some .toDown ↔
      t.isDown = false ∧ FAIL_TH ≤ (t.consecFail + 1) % 256) := by
  simp only [checkOne, Bool.false_and, Bool.false_eq_true, if_false]
  split
  · simp_all
  · simp_all

/-- A concrete down target about to see a single successful check. -/
def tDownOnce : Target :=
  { name := "DNS1", host := "8.8.8.8", intervalMs := 7000, isDown := true }

/-- Claim C2, counterexample: a down target whose check succeeds once
(1 of 4 probe rounds, average 10 ms) stays down (`consecOk = 1 < 2`)
yet `lastAvgRtt` becomes 10, not `-1` — `isDown = true` does not force
the sentinel. -/
theorem lastAvgRtt_down_counterexample :
    (checkOne true [some 10, none, none, none] 5 tDownOnce).1.isDown = true ∧
    (checkOne true [some 10, none, none, none] 5 tDownOnce).1.lastAvgRtt = 10 ∧
    ¬ (checkOne true [some 10, none, none, none] 5 tDownOnce).1.lastAvgRtt = -1 := by
  refine ⟨by decide, ?_, ?_⟩ <;> simp [checkOne, icmpAvgMs, tDownOnce, PING_TRY, REC_TH]
  norm_num

/-- Claim C2, amended: `lastAvgRtt = -1` after every check whose probe had
zero successful rounds (including checks run without connectivity); a
target that is still down after a successful check instead carries that
check's average. -/
theorem lastAvgRtt_sentinel (wifi : Bool) (rounds : List (Option ℚ)) (now : Nat)
    (t : Target) (h : wifi = false ∨ (icmpAvgMs rounds).1 = false) :
    (checkOne wifi rounds now t).1.lastAvgRtt = -1 := by
  have hup : (wifi && (icmpAvgMs rounds).1) = false := by
    rcases h with h | h <;> simp [h]
  simp only [checkOne, hup, Bool.false_eq_true, if_false]
  split <;> simp

/-- Witness for `lastAvgRtt_sentinel` at a concrete input: all four probe
rounds fail. -/
theorem lastAvgRtt_sentinel_witness :
    ((false : Bool) = false ∨ (icmpAvgMs [none, none, none, none]).1 = false) ∧
    (checkOne true [none, none, none, none] 9 tDownOnce).1.lastAvgRtt = -1 := by
  refine ⟨by decide, ?_⟩
  exact lastAvgRtt_sentinel true [none, none, none, none] 9 tDownOnce (Or.inr (by decide))

/-- Claim C3: under the reachability invariant, a check signals a DOWN
transition iff the target was up and `consecFail` reaches exactly 3 on
that check, and an UP transition iff it was down and `consecOk` reaches
exactly 2 on that check; no other counter values produce a transition. -/
theorem checkOne_transition_iff (wifi : Bool) (rounds : List (Option ℚ)) (now : Nat)
    (t : Target) (hInv : TargetInv t) :
    ((checkOne wifi rounds now t).2 = some .toDown ↔
       t.isDown = false ∧ (checkOne wifi rounds now t).1.consecFail = 3) ∧
    ((checkOne wifi rounds now t).2 = some .toUp ↔
       t.isDown = true ∧ (checkOne wifi rounds now t).1.consecOk = 2) := by
  obtain ⟨hf, ho, hok, hfl⟩ := hInv
  cases hup : wifi && (icmpAvgMs rounds).1 with
  | true =>
      simp only [checkOne, hup, if_true]
      cases hd : t.isDown with
      | true =>
          have h1 : t.consecOk ≤ 1 := ho hd
          constructor
          · split <;> simp_all [REC_TH]
          · split <;> simp_all [REC_TH] <;> omega
      | false =>
          constructor <;> split <;> simp_all [REC_TH]
  | false =>
      simp only [checkOne, hup, Bool.false_eq_true, if_false]
      cases hd : t.isDown with
      | true =>
          constructor <;> split <;> simp_all [FAIL_TH]
      | false =>
          have h1 : t.consecFail ≤ 2 := hf hd
          constructor
          · split <;> simp_all [FAIL_TH] <;> omega
          · split <;> simp_all [FAIL_TH]

/-- Witness for `checkOne_transition_iff`: the third consecutive failed
check on an up target with `consecFail = 2` transitions it to down. -/
theorem checkOne_transition_iff_witness :
    TargetInv tNoWifi ∧
    ((checkOne true [none, none, none, none] 42 tNoWifi).2 = some .toDown ↔
       tNoWifi.isDown = false ∧
       (checkOne true [none, none, none, none] 42 tNoWifi).1.consecFail = 3) := by
  refine ⟨by decide, ?_⟩
  exact (checkOne_transition_iff true [none, none, none, none] 42 tNoWifi (by decide)).1

end MiniNMS

namespace MiniNMS

/-- `addTarget` never grows the registry past `MAX_TGT`. -/
theorem addTarget_length (reg : List Target) (name host : String) (itvl : Nat)
    (hlen : reg.length ≤ MAX_TGT) :
    (addTarget reg name host itvl).1.length ≤ MAX_TGT := by
  unfold addTarget
  split
  · exact hlen
  · simp only [List.length_append, List.length_cons, List.length_nil]
    omega

/-- `delTargetByName` never grows the registry. -/
theorem delTargetByName_length (reg : List Target) (name : String) :
    (delTargetByName reg name).1.length ≤ reg.length := by
  unfold delTargetByName
  split
  · exact Nat.le_refl _
  · exact List.length_eraseIdx_le _ _

/-- `setIntervalByName` preserves the registry's length. -/
theorem setIntervalByName_length (reg : List Target) (name : String) (itvl : Nat) :
    (setIntervalByName reg name itvl).1.length = reg.length := by
  unfold setIntervalByName
  split
  · rfl
  · split
    · rfl
    · exact List.length_set _ _ _

/-- Claim C4: after a scheduler check pass, an add, a delete or a
set-interval, `consecOk` and `consecFail` are never simultaneously
non-zero, and the target appended by `addTarget` starts with both
counters at zero. -/
theorem counters_mutually_exclusive (wifi : Bool) (probes : Nat → List (Option ℚ))
    (now : Nat) (reg : List Target) (name host : String) (itvl : Nat)
    (h : ∀ t ∈ reg, MutExCtr t) :
    (∀ t ∈ runChecks wifi probes now reg, MutExCtr t) ∧
    (∀ t ∈ (addTarget reg name host itvl).1, MutExCtr t) ∧
    (∀ t ∈ (delTargetByName reg name).1, MutExCtr t) ∧
    (∀ t ∈ (setIntervalByName reg name itvl).1, MutExCtr t) ∧
    (newTarget name host itvl).consecOk = 0 ∧ (newTarget name host itvl).consecFail = 0 := by
  refine ⟨?_, ?_, ?_, ?_, rfl, rfl⟩
  · intro t' ht'
    rcases mem_runChecksFrom wifi probes now reg 0 t' ht' with ⟨t, ht, heq⟩ | ⟨t, ht, j, heq⟩
    · exact heq ▸ h t ht
    · exact heq ▸ mutEx_checkOne wifi (probes j) now { t with lastCheckMs := now }
  · intro t' ht'
    unfold addTarget at ht'
    split at ht'
    · exact h t' ht'
    · rcases List.mem_append.mp ht' with hm | hm
      · exact h t' hm
      · rcases List.mem_singleton.mp hm with rfl
        exact Or.inl rfl
  · intro t' ht'
    unfold delTargetByName at ht'
    split at ht'
    · exact h t' ht'
    · exact h t' (List.eraseIdx_subset _ _ ht')
  · intro t' ht'
    unfold setIntervalByName at ht'
    split at ht'
    · exact h t' ht'
    · split at ht'
      · exact h t' ht'
      · rcases List.mem_or_eq_of_mem_set ht' with hm | rfl
        · exact h t' hm
        · rename_i hfind t hget
          exact h t (List.getElem?_mem hget)

/-- Witness for `counters_mutually_exclusive` at a concrete one-entry
registry. -/
theorem counters_mutually_exclusive_witness :
    (∀ t ∈ [tNoWifi], MutExCtr t) ∧
    (∀ t ∈ runChecks false (fun _ => []) 6000 [tNoWifi], MutExCtr t) := by
  refine ⟨by decide, ?_⟩
  exact (counters_mutually_exclusive false (fun _ => []) 6000 [tNoWifi] "x" "h" 1
    (by decide)).1

/-- Claim C5: the registry never exceeds the fixed capacity of 12 —
`addTarget` and every command keep `length ≤ MAX_TGT` — and an add
issued on a full registry returns failure and leaves the registry
completely unchanged. -/
theorem registry_capacity (reg : List Target) (name host : String) (itvl : Nat)
    (p : CmdPacket) (hlen : reg.length ≤ MAX_TGT) :
    (addTarget reg name host itvl).1.length ≤ MAX_TGT ∧
    (handleCommandUDP reg p).length ≤ MAX_TGT ∧
    (reg.length = MAX_TGT → addTarget reg name host itvl = (reg, false)) := by
  refine ⟨addTarget_length reg name host itvl hlen, ?_, ?_⟩
  · cases p with
    | bad => exact hlen
    | ok d =>
        simp only [handleCommandUDP]
        split_ifs
        · exact addTarget_length _ _ _ _ hlen
        · exact hlen
        · exact Nat.le_trans (delTargetByName_length _ _) hlen
        · exact hlen
        · rw [setIntervalByName_length]
          exact hlen
        · exact hlen
        · exact hlen
  · intro hfull
    unfold addTarget
    rw [if_pos (Nat.le_of_eq hfull.symm)]

/-- Witness for `registry_capacity`: a full 12-entry registry rejects the
13th add without mutation. -/
theorem registry_capacity_witness :
    (List.replicate 12 tNoWifi).length ≤ MAX_TGT ∧
    (List.replicate 12 tNoWifi).length = MAX_TGT ∧
    addTarget (List.replicate 12 tNoWifi) "x" "10.0.0.9" 6000 =
      (List.replicate 12 tNoWifi, false) := by
  refine ⟨by decide, by decide, ?_⟩
  exact (registry_capacity (List.replicate 12 tNoWifi) "x" "10.0.0.9" 6000 .bad
    (by decide)).2.2 (by decide)

/-- Claim C6: a `set` command whose `itvl` is zero or absent is rejected
silently — the registry is returned unchanged — while a `set` with
non-empty name and `itvl > 0` applies `setIntervalByName`, which changes
nothing but the first matching entry's `intervalMs`. -/
theorem set_command_semantics (reg : List Target) (d : CmdDoc)
    (hcmd : d.cmd.getD "" = "set") :
    (d.itvl.getD 0 = 0 → handleCommandUDP reg (.ok d) = reg) ∧
    (∀ k : Nat, d.itvl.getD 0 = k → 0 < k → (d.name.getD "").length ≠ 0 →
      handleCommandUDP reg (.ok d) = (setIntervalByName reg (d.name.getD "") k).1 ∧
      onlyIntervalSet reg ((setIntervalByName reg (d.name.getD "") k).1)
        (d.name.getD "") k) := by
  constructor
  · intro h0
    simp [handleCommandUDP, hcmd, h0]
  · intro k hk hpos hname
    subst hk
    refine ⟨?_, setIntervalByName_only reg (d.name.getD "") (d.itvl.getD 0)⟩
    simp [handleCommandUDP, hcmd, hpos, hname]

/-- Witness for `set_command_semantics`: `{"cmd":"set","name":"zabbix","itvl":0}`
against a one-entry registry is a no-op. -/
theorem set_command_semantics_witness :
    (CmdDoc.cmd { cmd := some "set", name := some "zabbix", itvl := some 0 }).getD "" = "set" ∧
    handleCommandUDP [tNoWifi]
      (.ok { cmd := some "set", name := some "zabbix", itvl := some 0 }) = [tNoWifi] := by
  refine ⟨rfl, ?_⟩
  exact (set_command_semantics [tNoWifi]
    { cmd := some "set", name := some "zabbix", itvl := some 0 } rfl).1 rfl

end MiniNMS

/-! ## Claims about the Alarm Scheduler (C7, C10) -/

namespace MiniNMS

/-- Claim C7: on the `uint32_t` range (no timestamp wraparound between
activation and the tick), an active alarm tick at 60000 ms or more of
elapsed time force-stops the alarm and emits no beep; an active tick
before that (with no acknowledgement) keeps the alarm active — so the
auto-stop happens at the first tick at which 60000 ms have elapsed —
and a tick with `alarmActive = false` emits no beep events and changes
nothing. -/
theorem alarm_auto_timeout (s : AlarmState) (now : Nat) (btn : Bool)
    (h1 : s.startMs ≤ now) (h2 : now < s.startMs + U32) :
    (s.active = true → ALARM_MAX_MS ≤ now - s.startMs →
        alarmTick s now btn = (stopAlarm s, [])) ∧
    (s.active = true → now - s.startMs < ALARM_MAX_MS → btn = false →
        (alarmTick s now btn).1.active = true) ∧
    (s.active = false → alarmTick s now btn = (s, [])) := by
  have hsub : usub now s.startMs = now - s.startMs := usub_eq_sub now s.startMs h1 h2
  refine ⟨?_, ?_, ?_⟩
  · intro hact helapsed
    simp [alarmTick, hact, hsub, helapsed]
  · intro hact helapsed hbtn
    have hlt : ¬ ALARM_MAX_MS ≤ usub now s.startMs := by
      rw [hsub]
      omega
    unfold alarmTick
    split_ifs <;> simp_all
  · intro hact
    simp [alarmTick, hact]

/-- Witness for `alarm_auto_timeout`: an alarm started at 0 is stopped by
the tick at 60000 ms. -/
theorem alarm_auto_timeout_witness :
    (0 : Nat) ≤ 60000 ∧ (60000 : Nat) < 0 + U32 ∧
    alarmTick { active := true, startMs := 0, nextMs := 0, step := 0 } 60000 false =
      (stopAlarm { active := true, startMs := 0, nextMs := 0, step := 0 }, []) := by
  refine ⟨by decide, by decide, ?_⟩
  exact (alarm_auto_timeout { active := true, startMs := 0, nextMs := 0, step := 0 }
    60000 false (by decide) (by decide)).1 rfl (by decide)

/-- Claim C10: when the alarm is already active, a further DOWN transition
re-invokes `beepDown`, which unconditionally resets `startMs` to the
current time, `nextEventMs` to 0 (fire immediately) and `step` to 0; the
next tick within the timeout window immediately emits the first beep of
a fresh 3-beep burst, and the 60000 ms auto-timeout is now measured from
the new `startMs`. -/
theorem beepDown_restarts_alarm (s : AlarmState) (now now2 : Nat)
    (hact : s.active = true) (h1 : now ≤ now2) (h2 : now2 < U32)
    (h3 : now2 - now < ALARM_MAX_MS) :
    beepDown s now = { active := true, startMs := now, nextMs := 0, step := 0 } ∧
    alarmTick (beepDown s now) now2 false =
      ({ active := true, startMs := now, nextMs := (now2 + 300) % U32, step := 1 },
       [(650, 180)]) := by
  have hb : beepDown s now = { active := true, startMs := now, nextMs := 0, step := 0 } := by
    simp [beepDown, BUZZER_ENABLE]
  refine ⟨hb, ?_⟩
  rw [hb]
  have hsub : usub now2 now = now2 - now := usub_eq_sub now2 now h1 (by omega)
  have hlt : ¬ ALARM_MAX_MS ≤ usub now2 now := by
    rw [hsub]
    omega
  simp [alarmTick, hlt]

/-- Witness for `beepDown_restarts_alarm`: an alarm active since time 3 is
restarted by a DOWN transition at time 10, and the tick at time 12 emits
the first beep of the new burst. -/
theorem beepDown_restarts_alarm_witness :
    AlarmState.active { active := true, startMs := 3, nextMs := 9, step := 2 } = true ∧
    beepDown { active := true, startMs := 3, nextMs := 9, step := 2 } 10 =
      { active := true, startMs := 10, nextMs := 0, step := 0 } ∧
    alarmTick (beepDown { active := true, startMs := 3, nextMs := 9, step := 2 } 10) 12 false =
      ({ active := true, startMs := 10, nextMs := (12 + 300) % U32, step := 1 },
       [(650, 180)]) := by
  refine ⟨rfl, ?_⟩
  exact beepDown_restarts_alarm { active := true, startMs := 3, nextMs := 9, step := 2 }
    10 12 rfl (by decide) (by decide) (by decide)

end MiniNMS

/-! ## Claims about the Telemetry Codec and Viewer Reconciler (C8, C9) -/

namespace MiniNMS

open NmsView

/-- Decoding one wire item recovers exactly the source target's
name/host/down/rtt. -/
theorem parseWireItem_itemJson (t : Target) :
    NmsView.parseWireItem (itemJson t) = some (toItem t) := by
  cases hd : t.isDown <;>
    simp [NmsView.parseWireItem, itemJson, toItem, NmsView.getStrT, NmsView.getIntT,
      NmsView.getDoubleD, NmsView.jget, NmsView.jnumToInt, hd]

/-- Decoding the whole `items` array recovers the source targets in
order. -/
theorem parseItems_map (tgts : List Target) :
    NmsView.parseItems (tgts.map itemJson) = some (tgts.map toItem) := by
  induction tgts with
  | nil => rfl
  | cons t ts ih => simp [NmsView.parseItems, parseWireItem_itemJson, ih]

/-- Claim C8: when the serialized registry fits the single-datagram size
bound, `sendTelemetryUDP` emits exactly one datagram, and reconciling it
replaces the viewer's display set with exactly one entry per source
target, matching its name, host, down flag and rtt (`toItem`). -/
theorem telemetry_roundtrip (s : NmsView.ViewerState) (ts : Nat) (tgts : List Target)
    (nowMs : Nat) (hfit : measureTelemetry ts tgts ≤ 1400) :
    sendTelemetryUDP true ts tgts = [.jsonObj (telemetryFields ts tgts)] ∧
    (NmsView.readUdpNonBlocking s (.jsonObj (telemetryFields ts tgts)) nowMs).items
      = tgts.map toItem ∧
    (NmsView.readUdpNonBlocking s (.jsonObj (telemetryFields ts tgts)) nowMs).items.length
      = tgts.length := by
  refine ⟨by simp [sendTelemetryUDP, hfit], ?_, ?_⟩ <;>
    simp [NmsView.readUdpNonBlocking, telemetryFields, NmsView.getArrOpt, NmsView.jget,
      parseItems_map]

/-- Witness for `telemetry_roundtrip` on a concrete one-target registry. -/
theorem telemetry_roundtrip_witness :
    measureTelemetry 1 [tNoWifi] ≤ 1400 ∧
    (NmsView.readUdpNonBlocking ⟨[], 0⟩ (.jsonObj (telemetryFields 1 [tNoWifi])) 0).items
      = [tNoWifi].map toItem := by
  refine ⟨by decide, ?_⟩
  exact (telemetry_roundtrip ⟨[], 0⟩ 1 [tNoWifi] 0 (by decide)).2.1

end MiniNMS

namespace NmsView

/-- A concrete viewer display state with one entry. -/
def viewBefore : ViewerState :=
  { items := [{ name := "zabbix", host := "192.168.11.200", down := false, rtt := 5 }],
    lastUpdateTs := 5 }

/-- Claim C9, counterexample: the datagram `{"ts":999}` is valid JSON whose
expected `items` field cannot be read, yet the viewer's display state is
NOT exactly what it was: the item list is retained but `lastUpdateTs`
is overwritten with 999. -/
theorem viewer_ts_counterexample :
    readUdpNonBlocking viewBefore (.jsonObj [("ts", .jnum 999)]) 7 ≠ viewBefore ∧
    (readUdpNonBlocking viewBefore (.jsonObj [("ts", .jnum 999)]) 7).items
      = viewBefore.items ∧
    (readUdpNonBlocking viewBefore (.jsonObj [("ts", .jnum 999)]) 7).lastUpdateTs = 999 := by
  decide

/-- Claim C9, amended: a datagram that fails JSON parsing (or arrives
within the socket timeout) leaves the viewer state exactly unchanged;
a datagram that parses to a JSON object whose `items` array is missing,
wrongly typed, or has an unreadable element leaves the item list and
every displayed field unchanged, but does update `lastUpdateTs` (to the
datagram's `ts`, defaulting to the viewer's clock), because the source
assigns the timestamp before validating `items`. -/
theorem viewer_discard_semantics (s : ViewerState) (nowMs : Nat) :
    (readUdpNonBlocking s .timeout nowMs = s) ∧
    (readUdpNonBlocking s .badJson nowMs = s) ∧
    (∀ fields, getArrOpt fields "items" = none →
        (readUdpNonBlocking s (.jsonObj fields) nowMs).items = s.items ∧
        (readUdpNonBlocking s (.jsonObj fields) nowMs).lastUpdateTs
          = getLongD fields "ts" (Int.ofNat nowMs)) ∧
    (∀ fields arr, getArrOpt fields "items" = some arr → parseItems arr = none →
        (readUdpNonBlocking s (.jsonObj fields) nowMs).items = s.items ∧
        (readUdpNonBlocking s (.jsonObj fields) nowMs).lastUpdateTs
          = getLongD fields "ts" (Int.ofNat nowMs)) := by
  refine ⟨rfl, rfl, ?_, ?_⟩
  · intro fields hnone
    simp [readUdpNonBlocking, hnone]
  · intro fields arr harr hperr
    simp [readUdpNonBlocking, harr, hperr]

/-- Witness for `viewer_discard_semantics` at the `{"ts":999}` datagram. -/
theorem viewer_discard_semantics_witness :
    getArrOpt [("ts", JVal.jnum 999)] "items" = none ∧
    (readUdpNonBlocking viewBefore (.jsonObj [("ts", .jnum 999)]) 7).items
      = viewBefore.items := by
  refine ⟨rfl, ?_⟩
  exact ((viewer_discard_semantics viewBefore 7).2.2.1 [("ts", JVal.jnum 999)] rfl).1

end NmsView
